import Mathlib

/-!
Shallow embedding of `src/main.py` (IBKR-Trades-Converter).

The Python program parses IBKR Flex-query XML exports into a graph of
dataclasses (`FlexQueryResponse` → `FlexStatements` → `FlexStatement` →
`Trades` → `Trade`/`Lot`), converts each non-CASH trade into a
`CgtCalculatorTrade` row, and flattens the rows across all documents.

Modelling choices:
* XML text is embedded from the point after `ET.fromstring`: an `XmlElem`
  tree with a tag, an attribute list and a child list.  `Element.get`,
  `Element.find` and `Element.findall` are modelled directly on that tree.
* Python floats are embedded as `ℚ`; `float(...)` / `int(...)` on attribute
  strings are modelled by `pyFloat` / `pyInt`, partial decimal-literal
  parsers returning `Option` (absence of the attribute gives `none`, as
  `Element.get` returns `None` and `float(None)` raises `TypeError`).
* Exceptions escaping a function are modelled by `Except String`.
* Attribute-valued string fields are `Option String`, matching `Element.get`
  returning `None` when the attribute is absent.
-/

namespace IbkrConv

/-- An XML element as seen after `xml.etree.ElementTree.fromstring`. -/
inductive XmlElem where
  | node (tag : String) (attrs : List (String × String)) (children : List XmlElem)

/-- The element's tag. -/
def XmlElem.tag : XmlElem → String
  | .node t _ _ => t

/-- The element's attribute list. -/
def XmlElem.attrs : XmlElem → List (String × String)
  | .node _ a _ => a

/-- The element's direct children. -/
def XmlElem.children : XmlElem → List XmlElem
  | .node _ _ c => c

/-- `elem.get(key)`: the attribute's value, or `None` when absent. -/
def XmlElem.attrGet (e : XmlElem) (k : String) : Option String :=
  (e.attrs.find? (fun p => p.1 == k)).map (fun p => p.2)

/-- `elem.find(tag)`: the first direct child with the given tag. -/
def XmlElem.findTag (e : XmlElem) (t : String) : Option XmlElem :=
  e.children.find? (fun c => c.tag == t)

/-- `elem.findall(tag)`: all direct children with the given tag, in order. -/
def XmlElem.findAllTag (e : XmlElem) (t : String) : List XmlElem :=
  e.children.filter (fun c => c.tag == t)

/-- Value of a list of decimal digit characters. -/
def digitsToNat (cs : List Char) : Nat :=
  cs.foldl (fun a c => 10 * a + (c.toNat - 48)) 0

/-- Models Python `float(s)` on plain decimal literals (optional sign,
integer part, optional fractional part): `some` of the value when `s` is such
a literal, `none` otherwise (a `ValueError` in Python).  Scientific notation
and special values are outside the inputs this development considers. -/
def pyFloat (s : String) : Option ℚ :=
  let signed : Bool × List Char :=
    match s.toList with
    | '-' :: t => (true, t)
    | '+' :: t => (false, t)
    | t => (false, t)
  let mag : Option ℚ :=
    match signed.2.splitOn '.' with
    | [ip] =>
        if ip ≠ [] ∧ ip.all Char.isDigit then
          some (mkRat (Int.ofNat (digitsToNat ip)) 1)
        else none
    | [ip, fp] =>
        if ip ++ fp ≠ [] ∧ ip.all Char.isDigit ∧ fp.all Char.isDigit then
          some (mkRat (Int.ofNat (digitsToNat (ip ++ fp))) (10 ^ fp.length))
        else none
    | _ => none
  mag.map (fun m => if signed.1 then -m else m)

/-- Models Python `int(s)` on plain signed decimal integer literals. -/
def pyInt (s : String) : Option ℤ :=
  let signed : Bool × List Char :=
    match s.toList with
    | '-' :: t => (true, t)
    | '+' :: t => (false, t)
    | t => (false, t)
  if signed.2 ≠ [] ∧ signed.2.all Char.isDigit then
    some (if signed.1 then -(Int.ofNat (digitsToNat signed.2))
          else Int.ofNat (digitsToNat signed.2))
  else none

/-- Models Python `int(x)` on a float `x`: truncation toward zero. -/
def pyTrunc (q : ℚ) : ℤ :=
  if q < 0 then -(Rat.floor (-q)) else Rat.floor q

/-- `AccountInformation` dataclass of `src/main.py`. -/
structure AccountInformation where
  accountId : Option String
  acctAlias : Option String
  currency : Option String
  dateOpened : Option String
deriving DecidableEq

/-- `Trade` dataclass of `src/main.py`. -/
structure Trade where
  symbol : Option String
  transactionType : Option String
  exchange : Option String
  quantity : ℚ
  tradePrice : ℚ
  currency : Option String
  fxRateToBase : ℚ
  assetCategory : Option String
  ibCommission : ℚ
  ibCommissionCurrency : Option String
  tradeDate : Option String
deriving DecidableEq

/-- `Trade.side`: `"SELL" if self.quantity < 0 else "BUY"`. -/
def Trade.side (t : Trade) : String :=
  if t.quantity < 0 then "SELL" else "BUY"

/-- `Trade.tradePriceInBaseCurrency`: `abs(tradePrice * fxRateToBase)`. -/
def Trade.tradePriceInBaseCurrency (t : Trade) : ℚ :=
  |t.tradePrice * t.fxRateToBase|

/-- `Trade.ibCommissionInBaseCurrency`: `abs(ibCommission)`, multiplied by
`fxRateToBase` when `ibCommissionCurrency == currency` (the trade's own
currency field). -/
def Trade.ibCommissionInBaseCurrency (t : Trade) : ℚ :=
  let c := |t.ibCommission|
  if t.ibCommissionCurrency = t.currency then c * t.fxRateToBase else c

/-- `Lot` dataclass of `src/main.py`: like `Trade` but the commission is
retained as raw attribute text. -/
structure Lot where
  symbol : Option String
  transactionType : Option String
  exchange : Option String
  quantity : ℚ
  tradePrice : ℚ
  currency : Option String
  fxRateToBase : ℚ
  assetCategory : Option String
  ibCommission : Option String
  ibCommissionCurrency : Option String
  tradeDate : Option String
deriving DecidableEq

/-- `Trades` dataclass of `src/main.py`. -/
structure Trades where
  trade : List Trade
  lot : List Lot
deriving DecidableEq

/-- `FlexStatement` dataclass of `src/main.py`. -/
structure FlexStatement where
  accountId : Option String
  fromDate : Option String
  toDate : Option String
  period : Option String
  whenGenerated : Option String
  accountInformation : Option AccountInformation
  trades : Option Trades
deriving DecidableEq

/-- `FlexStatements` dataclass of `src/main.py`. -/
structure FlexStatements where
  count : ℤ
  flexStatement : List FlexStatement
deriving DecidableEq

/-- `FlexQueryResponse` dataclass of `src/main.py`. -/
structure FlexQueryResponse where
  queryName : Option String
  «type» : Option String
  flexStatements : Option FlexStatements
deriving DecidableEq

/-- `CgtCalculatorTrade` dataclass of `src/main.py` (output row). -/
structure CgtCalculatorTrade where
  side : String
  date : Option String
  company : Option String
  shares : ℤ
  price : ℚ
  charges : ℚ
  tax : ℤ
deriving DecidableEq

/-- `convert` of `src/main.py`: derive one output row from one trade.
`shares` embeds `int(abs(ibkrTrade.quantity))`, `tax` is the dataclass
default `0`. -/
def convert (ibkrTrade : Trade) : CgtCalculatorTrade :=
  { side := ibkrTrade.side
    date := ibkrTrade.tradeDate
    company := ibkrTrade.symbol
    shares := pyTrunc |ibkrTrade.quantity|
    price := ibkrTrade.tradePriceInBaseCurrency
    charges := ibkrTrade.ibCommissionInBaseCurrency
    tax := 0 }

/-- Models Python `s.endswith(suffix)`. -/
def pyEndsWith (s suffix : String) : Bool :=
  suffix.toList.isSuffixOf s.toList

/-- A Python `for` loop that builds one result per element and lets an
exception escape: stops at the first failing element. -/
def mapExcept (f : α → Except String β) : List α → Except String (List β)
  | [] => Except.ok []
  | a :: l =>
      match f a with
      | Except.error m => Except.error m
      | Except.ok b =>
          match mapExcept f l with
          | Except.error m => Except.error m
          | Except.ok bs => Except.ok (b :: bs)

/-- A required float attribute inside a trade/lot entry: `float(elem.get(k))`
raises (`TypeError` when absent, `ValueError` when non-numeric), which
propagates out of `parse_xml`. -/
def reqFloat (e : XmlElem) (k : String) : Except String ℚ :=
  match (e.attrGet k).bind pyFloat with
  | some v => Except.ok v
  | none => Except.error ("could not convert to float: " ++ k)

/-- A required int attribute: `int(elem.get(k))`, raising on absence or
non-integer text. -/
def reqInt (e : XmlElem) (k : String) : Except String ℤ :=
  match (e.attrGet k).bind pyInt with
  | some v => Except.ok v
  | none => Except.error ("invalid literal for int: " ++ k)

/-- Lines 118-136 of `src/main.py`: build one `Trade` from a `Trade` element.
`ibCommission` is computed first inside `try/except` and coerced to `0.0` on
failure; the other three numeric fields are strict. -/
def parseTradeElem (e : XmlElem) : Except String Trade := do
  let ibCommission : ℚ := ((e.attrGet "ibCommission").bind pyFloat).getD 0
  let quantity ← reqFloat e "quantity"
  let tradePrice ← reqFloat e "tradePrice"
  let fxRateToBase ← reqFloat e "fxRateToBase"
  Except.ok
    { symbol := e.attrGet "symbol"
      transactionType := e.attrGet "transactionType"
      exchange := e.attrGet "exchange"
      quantity := quantity
      tradePrice := tradePrice
      currency := e.attrGet "currency"
      fxRateToBase := fxRateToBase
      assetCategory := e.attrGet "assetCategory"
      ibCommission := ibCommission
      ibCommissionCurrency := e.attrGet "ibCommissionCurrency"
      tradeDate := e.attrGet "tradeDate" }

/-- Lines 137-150 of `src/main.py`: build one `Lot` from a `Lot` element.
Numeric fields strict, commission kept as raw text. -/
def parseLotElem (e : XmlElem) : Except String Lot := do
  let quantity ← reqFloat e "quantity"
  let tradePrice ← reqFloat e "tradePrice"
  let fxRateToBase ← reqFloat e "fxRateToBase"
  Except.ok
    { symbol := e.attrGet "symbol"
      transactionType := e.attrGet "transactionType"
      exchange := e.attrGet "exchange"
      quantity := quantity
      tradePrice := tradePrice
      currency := e.attrGet "currency"
      fxRateToBase := fxRateToBase
      assetCategory := e.attrGet "assetCategory"
      ibCommission := e.attrGet "ibCommission"
      ibCommissionCurrency := e.attrGet "ibCommissionCurrency"
      tradeDate := e.attrGet "tradeDate" }

/-- The `Trades` child: trade entries then lot entries, each in document
order; any entry failure propagates. -/
def parseTradesElem (te : XmlElem) : Except String Trades := do
  let ts ← mapExcept parseTradeElem (te.findAllTag "Trade")
  let ls ← mapExcept parseLotElem (te.findAllTag "Lot")
  Except.ok { trade := ts, lot := ls }

/-- One `FlexStatement` element: opaque string attributes, optional
`AccountInformation` child, optional `Trades` child. -/
def parseStatementElem (se : XmlElem) : Except String FlexStatement := do
  let ai : Option AccountInformation :=
    match se.findTag "AccountInformation" with
    | none => none
    | some a =>
        some { accountId := a.attrGet "accountId"
               acctAlias := a.attrGet "acctAlias"
               currency := a.attrGet "currency"
               dateOpened := a.attrGet "dateOpened" }
  let tr : Option Trades ←
    match se.findTag "Trades" with
    | none => pure none
    | some te => do
        let t ← parseTradesElem te
        pure (some t)
  Except.ok
    { accountId := se.attrGet "accountId"
      fromDate := se.attrGet "fromDate"
      toDate := se.attrGet "toDate"
      period := se.attrGet "period"
      whenGenerated := se.attrGet "whenGenerated"
      accountInformation := ai
      trades := tr }

/-- `parse_xml` of `src/main.py`, from the element tree onward: root
attributes are permissive; when a `FlexStatements` child exists its `count`
attribute is parsed with `int(...)` (strict) and the statements are parsed in
document order. -/
def parse_xml (root : XmlElem) : Except String FlexQueryResponse :=
  match root.findTag "FlexStatements" with
  | none =>
      Except.ok
        { queryName := root.attrGet "queryName"
          «type» := root.attrGet "type"
          flexStatements := none }
  | some fse => do
      let count ← reqInt fse "count"
      let stmts ← mapExcept parseStatementElem (fse.findAllTag "FlexStatement")
      Except.ok
        { queryName := root.attrGet "queryName"
          «type» := root.attrGet "type"
          flexStatements := some { count := count, flexStatement := stmts } }

/-- One step of the `process_xml_files` loop over directory entries: skip
non-`.xml` names; a file whose text is not well-formed markup (modelled as
`none`) or whose parse raises is logged and skipped, a successful parse is
appended. -/
def processStep (acc : List FlexQueryResponse × List String)
    (f : String × Option XmlElem) : List FlexQueryResponse × List String :=
  if pyEndsWith f.1 ".xml" then
    match f.2 with
    | none => (acc.1, acc.2 ++ ["Error parsing XML file " ++ f.1])
    | some root =>
        match parse_xml root with
        | Except.ok d => (acc.1 ++ [d], acc.2)
        | Except.error e =>
            (acc.1, acc.2 ++ ["An unexpected error occurred processing " ++ f.1 ++ ": " ++ e])
  else acc

/-- `process_xml_files` of `src/main.py`: each directory entry is a filename
with the outcome of reading+ET-parsing its text (`none` = `ET.ParseError`).
Returns the successfully parsed documents in order, paired with the log of
reported errors. -/
def process_xml_files (files : List (String × Option XmlElem)) :
    List FlexQueryResponse × List String :=
  files.foldl processStep ([], [])

/-- Inner loop of `get_trades_from_xmls` over one statement:
`statement.trades.trade` raises `AttributeError` when `trades` is `None`;
otherwise trades with `assetCategory == "CASH"` are skipped and the rest
converted, in order. -/
def rowsOfStatement (st : FlexStatement) : Except String (List CgtCalculatorTrade) :=
  match st.trades with
  | none => Except.error "NoneType object has no attribute trade"
  | some tr =>
      Except.ok ((tr.trade.filter (fun t => t.assetCategory ≠ some "CASH")).map convert)

/-- Middle loop of `get_trades_from_xmls` over one document:
`data.flexStatements.flexStatement` raises `AttributeError` when
`flexStatements` is `None`. -/
def rowsOfDoc (d : FlexQueryResponse) : Except String (List CgtCalculatorTrade) :=
  match d.flexStatements with
  | none => Except.error "NoneType object has no attribute flexStatement"
  | some fs => do
      let ls ← mapExcept rowsOfStatement fs.flexStatement
      Except.ok ls.flatten

/-- The conversion stage of `get_trades_from_xmls`: flatten the rows of the
already-parsed documents in order; the first `AttributeError` aborts. -/
def get_trades_from_parsed (parsed : List FlexQueryResponse) :
    Except String (List CgtCalculatorTrade) := do
  let ls ← mapExcept rowsOfDoc parsed
  Except.ok ls.flatten

/-- `get_trades_from_xmls` of `src/main.py`: parse the files (per-file
failures logged and skipped), then convert the parsed documents. -/
def get_trades_from_xmls (files : List (String × Option XmlElem)) :
    Except String (List CgtCalculatorTrade) :=
  get_trades_from_parsed (process_xml_files files).1

/-- The statements of a parsed document; empty when the collection is
absent.  (Used to state traversal-order and error-handling claims.) -/
def statementsOf (d : FlexQueryResponse) : List FlexStatement :=
  match d.flexStatements with
  | none => []
  | some fs => fs.flexStatement

/-- The trades of a statement; empty when the trade block is absent. -/
def tradesOf (st : FlexStatement) : List Trade :=
  match st.trades with
  | none => []
  | some tr => tr.trade

/-- The rows one statement contributes: its non-CASH trades, converted, in
parsed order. -/
def stmtRows (st : FlexStatement) : List CgtCalculatorTrade :=
  ((tradesOf st).filter (fun t => t.assetCategory ≠ some "CASH")).map convert

/-- The nested traversal order stated by the spec: documents in input order,
statements within each document in parsed order, trades within each
statement in parsed order. -/
def traversalRows (docs : List FlexQueryResponse) : List CgtCalculatorTrade :=
  docs.flatMap (fun d => (statementsOf d).flatMap stmtRows)

/-- C2: the converted row's charges equal `abs(ibCommission) * fxRateToBase`
exactly when the commission currency equals the trade's own currency field,
and `abs(ibCommission)` otherwise; and the statement's account information
(hence the account's declared currency) plays no role in the conversion. -/
theorem charges_eq_commission_rule :
    ∀ (t : Trade),
      (convert t).charges =
        (if t.ibCommissionCurrency = t.currency then |t.ibCommission| * t.fxRateToBase
         else |t.ibCommission|) ∧
      ∀ (a f td p w : Option String) (ai ai2 : Option AccountInformation)
        (tr : Option Trades),
        rowsOfStatement ⟨a, f, td, p, w, ai, tr⟩ =
          rowsOfStatement ⟨a, f, td, p, w, ai2, tr⟩ := by
  intro t
  exact ⟨rfl, fun a f td p w ai ai2 tr => rfl⟩

/-- C3: the row's side is `"SELL"` iff the signed quantity is strictly
negative, and `"BUY"` iff the quantity is `≥ 0` (so zero is a `"BUY"`). -/
theorem side_sell_iff_neg_quantity :
    ∀ (t : Trade),
      ((convert t).side = "SELL" ↔ t.quantity < 0) ∧
      ((convert t).side = "BUY" ↔ 0 ≤ t.quantity) := by
  intro t
  by_cases h : t.quantity < 0
  · simp [convert, Trade.side, h, not_le.mpr h]
  · simp [convert, Trade.side, h, not_lt.mp h]

/-- C4: the row's price is `abs(tradePrice * fxRateToBase)`, hence
non-negative whatever the signs of the inputs. -/
theorem price_abs_nonneg :
    ∀ (t : Trade),
      (convert t).price = |t.tradePrice * t.fxRateToBase| ∧ 0 ≤ (convert t).price := by
  intro t
  exact ⟨rfl, abs_nonneg _⟩

/-- C5: the row's share count is `int(abs(quantity))` — the absolute value
of the quantity truncated toward zero — which, the argument of `int` being
non-negative, is the floor of `abs(quantity)`; fractional shares are
truncated, never rounded. -/
theorem shares_trunc_abs_quantity :
    ∀ (t : Trade),
      (convert t).shares = pyTrunc |t.quantity| ∧
      (convert t).shares = ⌊|t.quantity|⌋ := by
  intro t
  refine ⟨rfl, ?_⟩
  show pyTrunc |t.quantity| = ⌊|t.quantity|⌋
  unfold pyTrunc
  rw [if_neg (not_lt.mpr (abs_nonneg t.quantity))]
  rfl

theorem except_bind_ok {α β : Type} (b : α) (g : α → Except String β) :
    (Except.ok b >>= g) = g b := rfl

theorem except_bind_error {α β : Type} (m : String) (g : α → Except String β) :
    ((Except.error m : Except String α) >>= g) = Except.error m := rfl

theorem countP_prop_compl {α : Type} (p : α → Prop) [DecidablePred p] (l : List α) :
    l.countP (fun a => p a) + l.countP (fun a => ¬ p a) = l.length := by
  induction l with
  | nil => rfl
  | cons a l ih =>
      simp only [decide_not] at ih ⊢
      simp only [List.countP_cons, List.length_cons]
      by_cases h : p a <;> simp [h] <;> omega

theorem mapExcept_congr_ok {α β : Type} (f : α → Except String β) (g : α → β)
    (l : List α) (h : ∀ x ∈ l, f x = Except.ok (g x)) :
    mapExcept f l = Except.ok (l.map g) := by
  induction l with
  | nil => rfl
  | cons a l ih =>
      have h1 := h a (List.mem_cons_self a l)
      have h2 := ih (fun x hx => h x (List.mem_cons_of_mem a hx))
      simp [mapExcept, h1, h2]

theorem mapExcept_ok_mem {α β : Type} (f : α → Except String β) (l : List α)
    (bs : List β) (h : mapExcept f l = Except.ok bs) :
    ∀ x ∈ l, ∃ b, f x = Except.ok b := by
  induction l generalizing bs with
  | nil =>
      intro x hx
      simp at hx
  | cons a l ih =>
      intro x hx
      cases hfa : f a with
      | error m => simp [mapExcept, hfa] at h
      | ok b =>
          cases hl : mapExcept f l with
          | error m => simp [mapExcept, hfa, hl] at h
          | ok bs2 =>
              rcases List.mem_cons.mp hx with rfl | hx2
              · exact ⟨b, hfa⟩
              · exact ih bs2 hl x hx2

/-- C6: within a statement's trade block, every trade whose asset category
is the literal `"CASH"` contributes zero rows, and every other trade
contributes exactly one row (counted by `countP`); the other statement
fields are arbitrary. -/
theorem cash_trades_emit_zero_rows :
    ∀ (a f td p w : Option String) (ai : Option AccountInformation) (tr : Trades),
      rowsOfStatement ⟨a, f, td, p, w, ai, some tr⟩ =
        Except.ok ((tr.trade.filter (fun t => t.assetCategory ≠ some "CASH")).map convert) ∧
      ((tr.trade.filter (fun t => t.assetCategory ≠ some "CASH")).map convert).length =
        tr.trade.countP (fun t => t.assetCategory ≠ some "CASH") ∧
      tr.trade.countP (fun t => t.assetCategory = some "CASH") +
        tr.trade.countP (fun t => t.assetCategory ≠ some "CASH") = tr.trade.length := by
  intro a f td p w ai tr
  refine ⟨rfl, ?_, ?_⟩
  · rw [List.length_map, List.countP_eq_length_filter]
  · simpa using countP_prop_compl (fun t : Trade => t.assetCategory = some "CASH") tr.trade

/-- Per-file outcome of the `process_xml_files` loop: the parsed document
when the file is an `.xml` file that reads and parses cleanly. -/
def parseOutcome (f : String × Option XmlElem) : Option FlexQueryResponse :=
  if pyEndsWith f.1 ".xml" then
    match f.2 with
    | none => none
    | some root =>
        match parse_xml root with
        | Except.ok d => some d
        | Except.error _ => none
  else none

/-- Per-file log line of the `process_xml_files` loop, when the file fails. -/
def logOutcome (f : String × Option XmlElem) : Option String :=
  if pyEndsWith f.1 ".xml" then
    match f.2 with
    | none => some ("Error parsing XML file " ++ f.1)
    | some root =>
        match parse_xml root with
        | Except.ok _ => none
        | Except.error e =>
            some ("An unexpected error occurred processing " ++ f.1 ++ ": " ++ e)
  else none

/-- C9: batch processing isolates per-document failures: the parsed result
list is exactly the per-file successes in order (a failing document is
skipped without aborting the rest), and the log holds exactly one entry per
failing document, naming its file and a description. -/
theorem process_isolates_failures :
    ∀ (files : List (String × Option XmlElem)),
      process_xml_files files =
        (files.filterMap parseOutcome, files.filterMap logOutcome) := by
  have go : ∀ (files : List (String × Option XmlElem)) (acc : List FlexQueryResponse × List String),
      files.foldl processStep acc =
        (acc.1 ++ files.filterMap parseOutcome, acc.2 ++ files.filterMap logOutcome) := by
    intro files
    induction files with
    | nil => intro acc; simp
    | cons f fs ih =>
        intro acc
        rw [List.foldl_cons, ih (processStep acc f)]
        rcases f with ⟨name, c⟩
        by_cases h : pyEndsWith name ".xml"
        · cases c with
          | none => simp [processStep, parseOutcome, logOutcome, h, List.filterMap_cons]
          | some root =>
              cases hp : parse_xml root with
              | ok d =>
                  simp [processStep, parseOutcome, logOutcome, h, hp, List.filterMap_cons]
              | error e =>
                  simp [processStep, parseOutcome, logOutcome, h, hp, List.filterMap_cons]
        · simp [processStep, parseOutcome, logOutcome, h, List.filterMap_cons]
  intro files
  simpa [process_xml_files] using go files ([], [])

theorem rowsOfStatement_ok_of_isSome (st : FlexStatement)
    (h : st.trades.isSome = true) :
    rowsOfStatement st = Except.ok (stmtRows st) := by
  rcases st with ⟨a, f, td, p, w, ai, tr⟩
  cases tr with
  | none => simp at h
  | some tr => rfl

theorem rowsOfDoc_ok_of_isSome (d : FlexQueryResponse)
    (h1 : d.flexStatements.isSome = true)
    (h2 : ∀ st ∈ statementsOf d, st.trades.isSome = true) :
    rowsOfDoc d = Except.ok ((statementsOf d).flatMap stmtRows) := by
  rcases d with ⟨qn, ty, fs⟩
  cases fs with
  | none => simp at h1
  | some fs =>
      have hm : mapExcept rowsOfStatement fs.flexStatement =
          Except.ok (fs.flexStatement.map stmtRows) :=
        mapExcept_congr_ok _ _ _ (fun st hst => rowsOfStatement_ok_of_isSome st (h2 st hst))
      simp [rowsOfDoc, hm, except_bind_ok, statementsOf, List.flatMap]

/-- C8: for parsed documents whose statement collections and trade blocks
are all present, the converter's output is exactly the nested traversal:
documents in input order, statements within each document in parsed order,
trades within each statement in parsed order — no reordering. -/
theorem ledger_order_is_traversal_order :
    ∀ (docs : List FlexQueryResponse),
      (∀ d ∈ docs, d.flexStatements.isSome = true ∧
        ∀ st ∈ statementsOf d, st.trades.isSome = true) →
      get_trades_from_parsed docs = Except.ok (traversalRows docs) := by
  intro docs h
  have hm : mapExcept rowsOfDoc docs =
      Except.ok (docs.map (fun d => (statementsOf d).flatMap stmtRows)) :=
    mapExcept_congr_ok _ _ _ (fun d hd => rowsOfDoc_ok_of_isSome d (h d hd).1 (h d hd).2)
  simp [get_trades_from_parsed, hm, except_bind_ok, traversalRows, List.flatMap]

/-- Example trade: the spec's single-trade scenario (AAPL sell of 10). -/
def exTradeAapl : Trade :=
  { symbol := some "AAPL"
    transactionType := some "ExchTrade"
    exchange := some "NASDAQ"
    quantity := -10
    tradePrice := 150
    currency := some "USD"
    fxRateToBase := 1
    assetCategory := some "STK"
    ibCommission := 1
    ibCommissionCurrency := some "USD"
    tradeDate := some "2024-01-05" }

/-- Example trade: a cash movement, to be filtered out. -/
def exTradeCash : Trade :=
  { exTradeAapl with symbol := some "USD.GBP", assetCategory := some "CASH" }

/-- Example trade: a second stock buy. -/
def exTradeMsft : Trade :=
  { exTradeAapl with symbol := some "MSFT", quantity := 5, tradePrice := 400 }

/-- Example statement holding the three example trades. -/
def exStatement : FlexStatement :=
  { accountId := some "U111"
    fromDate := some "2024-01-01"
    toDate := some "2024-12-31"
    period := some "Annual"
    whenGenerated := some "2025-01-02"
    accountInformation := none
    trades := some { trade := [exTradeAapl, exTradeCash, exTradeMsft], lot := [] } }

/-- Example statement holding only the MSFT trade. -/
def exStatementMsft : FlexStatement :=
  { exStatement with trades := some { trade := [exTradeMsft], lot := [] } }

/-- Example document with two statements. -/
def exDoc1 : FlexQueryResponse :=
  { queryName := some "q1"
    «type» := some "AF"
    flexStatements := some { count := 2, flexStatement := [exStatement, exStatementMsft] } }

/-- Example document with one statement. -/
def exDoc2 : FlexQueryResponse :=
  { queryName := some "q2"
    «type» := some "AF"
    flexStatements := some { count := 1, flexStatement := [exStatement] } }

theorem ledger_order_is_traversal_order_witness :
    (∀ d ∈ [exDoc1, exDoc2], d.flexStatements.isSome = true ∧
      ∀ st ∈ statementsOf d, st.trades.isSome = true) ∧
    get_trades_from_parsed [exDoc1, exDoc2] =
      Except.ok (traversalRows [exDoc1, exDoc2]) :=
  ⟨by decide, ledger_order_is_traversal_order [exDoc1, exDoc2] (by decide)⟩

/-- The trade elements a document's parse visits: those of the `Trades`
child of each statement of the `FlexStatements` child. -/
def docTradeElems (root : XmlElem) : List XmlElem :=
  match root.findTag "FlexStatements" with
  | none => []
  | some fse =>
      (fse.findAllTag "FlexStatement").flatMap (fun se =>
        match se.findTag "Trades" with
        | none => []
        | some te => te.findAllTag "Trade")

/-- C7: per trade entry, a missing or non-numeric `quantity`, `tradePrice`
or `fxRateToBase` makes the trade's parse raise — and hence (last conjunct,
contrapositively) the whole document's parse fail — while a missing or
non-numeric `ibCommission` never fails: the trade still parses, its
commission is coerced to `0`, and its converted row's charges are `0`. -/
theorem numeric_fields_strict_commission_lenient :
    ∀ (e root : XmlElem),
      ((e.attrGet "quantity").bind pyFloat = none →
        ∃ m, parseTradeElem e = Except.error m) ∧
      ((e.attrGet "tradePrice").bind pyFloat = none →
        ∃ m, parseTradeElem e = Except.error m) ∧
      ((e.attrGet "fxRateToBase").bind pyFloat = none →
        ∃ m, parseTradeElem e = Except.error m) ∧
      ((e.attrGet "ibCommission").bind pyFloat = none →
        ∀ t, parseTradeElem e = Except.ok t →
          t.ibCommission = 0 ∧ (convert t).charges = 0) ∧
      (∀ (r : FlexQueryResponse), parse_xml root = Except.ok r →
        ∀ e2 ∈ docTradeElems root, ∃ t, parseTradeElem e2 = Except.ok t) := by
  intro e root
  refine ⟨?_, ?_, ?_, ?_, ?_⟩
  · intro hq
    have h1 : reqFloat e "quantity" = Except.error "could not convert to float: quantity" := by
      simp [reqFloat, hq]
    exact ⟨"could not convert to float: quantity",
      by simp [parseTradeElem, h1, except_bind_error]⟩
  · intro hp
    cases hq : reqFloat e "quantity" with
    | error m => exact ⟨m, by simp [parseTradeElem, hq, except_bind_error]⟩
    | ok q =>
        have h2 : reqFloat e "tradePrice" = Except.error "could not convert to float: tradePrice" := by
          simp [reqFloat, hp]
        exact ⟨"could not convert to float: tradePrice",
          by simp [parseTradeElem, hq, h2, except_bind_ok, except_bind_error]⟩
  · intro hx
    cases hq : reqFloat e "quantity" with
    | error m => exact ⟨m, by simp [parseTradeElem, hq, except_bind_error]⟩
    | ok q =>
        cases hp : reqFloat e "tradePrice" with
        | error m =>
            exact ⟨m, by simp [parseTradeElem, hq, hp, except_bind_ok, except_bind_error]⟩
        | ok pr =>
            have h3 : reqFloat e "fxRateToBase" = Except.error "could not convert to float: fxRateToBase" := by
              simp [reqFloat, hx]
            exact ⟨"could not convert to float: fxRateToBase",
              by simp [parseTradeElem, hq, hp, h3, except_bind_ok, except_bind_error]⟩
  · intro hc t hok
    cases hq : reqFloat e "quantity" with
    | error m => simp [parseTradeElem, hq, except_bind_error] at hok
    | ok q =>
        cases hp : reqFloat e "tradePrice" with
        | error m => simp [parseTradeElem, hq, hp, except_bind_ok, except_bind_error] at hok
        | ok pr =>
            cases hx : reqFloat e "fxRateToBase" with
            | error m =>
                simp [parseTradeElem, hq, hp, hx, except_bind_ok, except_bind_error] at hok
            | ok fx =>
                simp only [parseTradeElem, hq, hp, hx, except_bind_ok,
                  Except.ok.injEq] at hok
                subst hok
                refine ⟨by simp [hc], ?_⟩
                simp only [convert, Trade.ibCommissionInBaseCurrency, hc]
                split <;> simp [hc]
  · intro r hok e2 he2
    cases hf : root.findTag "FlexStatements" with
    | none => simp [docTradeElems, hf] at he2
    | some fse =>
        cases hcnt : reqInt fse "count" with
        | error m => simp [parse_xml, hf, hcnt, except_bind_error] at hok
        | ok n =>
            cases hst : mapExcept parseStatementElem (fse.findAllTag "FlexStatement") with
            | error m =>
                simp [parse_xml, hf, hcnt, hst, except_bind_ok, except_bind_error] at hok
            | ok stmts =>
                simp only [docTradeElems, hf, List.mem_flatMap] at he2
                obtain ⟨se, hse, he2m⟩ := he2
                obtain ⟨st, hstOk⟩ := mapExcept_ok_mem _ _ _ hst se hse
                cases htr : se.findTag "Trades" with
                | none => rw [htr] at he2m; simp at he2m
                | some te =>
                    rw [htr] at he2m
                    cases hte : parseTradesElem te with
                    | error m =>
                        rw [parseStatementElem] at hstOk
                        simp [htr, hte, except_bind_error] at hstOk
                    | ok tr =>
                        cases hts : mapExcept parseTradeElem (te.findAllTag "Trade") with
                        | error m =>
                            rw [parseTradesElem] at hte
                            simp [hts, except_bind_error] at hte
                        | ok ts => exact mapExcept_ok_mem _ _ _ hts e2 he2m

/-- A trade element with no attributes at all (numeric fields missing). -/
def eNoQty : XmlElem := .node "Trade" [] []

/-- A trade element with all load-bearing fields but no `ibCommission`. -/
def eNoComm : XmlElem :=
  .node "Trade"
    [("symbol", "AAPL"), ("quantity", "-10"), ("tradePrice", "150.0"),
     ("fxRateToBase", "1"), ("currency", "USD"), ("ibCommissionCurrency", "USD"),
     ("assetCategory", "STK"), ("tradeDate", "2024-01-05")] []

/-- The trade `eNoComm` parses to: commission coerced to `0`. -/
def tNoComm : Trade :=
  { symbol := some "AAPL"
    transactionType := none
    exchange := none
    quantity := -10
    tradePrice := 150
    currency := some "USD"
    fxRateToBase := 1
    assetCategory := some "STK"
    ibCommission := 0
    ibCommissionCurrency := some "USD"
    tradeDate := some "2024-01-05" }

/-- A fully well-formed document element around `eNoComm`. -/
def rootFull : XmlElem :=
  .node "FlexQueryResponse" [("queryName", "q"), ("type", "AF")]
    [.node "FlexStatements" [("count", "1")]
      [.node "FlexStatement" [("accountId", "U111")]
        [.node "Trades" [] [eNoComm]]]]

/-- What `rootFull` parses to. -/
def docFull : FlexQueryResponse :=
  { queryName := some "q"
    «type» := some "AF"
    flexStatements := some
      { count := 1
        flexStatement :=
          [{ accountId := some "U111"
             fromDate := none
             toDate := none
             period := none
             whenGenerated := none
             accountInformation := none
             trades := some { trade := [tNoComm], lot := [] } }] } }

theorem numeric_fields_strict_commission_lenient_witness :
    (∃ m, parseTradeElem eNoQty = Except.error m) ∧
    (tNoComm.ibCommission = 0 ∧ (convert tNoComm).charges = 0) ∧
    (∃ t, parseTradeElem eNoComm = Except.ok t) :=
  ⟨(numeric_fields_strict_commission_lenient eNoQty eNoQty).1 rfl,
   (numeric_fields_strict_commission_lenient eNoComm eNoComm).2.2.2.1 rfl tNoComm rfl,
   (numeric_fields_strict_commission_lenient eNoComm rootFull).2.2.2.2 docFull rfl
     eNoComm (List.mem_singleton_self eNoComm)⟩

/-- C10: when a `FlexStatements` element is present, its `count` attribute
must be an integer literal — if it is absent or not an integer literal, the
document's parse fails, however well-formed the rest of the document is. -/
theorem count_attribute_mandatory :
    ∀ (root fse : XmlElem), root.findTag "FlexStatements" = some fse →
      (fse.attrGet "count").bind pyInt = none →
      ∃ m, parse_xml root = Except.error m := by
  intro root fse hf hc
  refine ⟨"invalid literal for int: count", ?_⟩
  have h1 : reqInt fse "count" = Except.error "invalid literal for int: count" := by
    simp [reqInt, hc]
  simp [parse_xml, hf, h1, except_bind_error]

/-- A fully populated trade element (all attributes present and numeric). -/
def eTradeFull : XmlElem :=
  .node "Trade"
    [("symbol", "AAPL"), ("transactionType", "ExchTrade"), ("exchange", "NASDAQ"),
     ("quantity", "-10"), ("tradePrice", "150.0"), ("currency", "USD"),
     ("fxRateToBase", "1"), ("assetCategory", "STK"), ("ibCommission", "1.0"),
     ("ibCommissionCurrency", "USD"), ("tradeDate", "2024-01-05")] []

/-- A statement collection element that lacks the `count` attribute but is
otherwise fully well-formed. -/
def fseNoCount : XmlElem :=
  .node "FlexStatements" []
    [.node "FlexStatement"
      [("accountId", "U222"), ("fromDate", "2024-01-01"), ("toDate", "2024-12-31"),
       ("period", "Annual"), ("whenGenerated", "2025-01-02")]
      [.node "AccountInformation"
        [("accountId", "U222"), ("acctAlias", "me"), ("currency", "GBP"),
         ("dateOpened", "2020-01-01")] [],
       .node "Trades" [] [eTradeFull]]]

/-- A document element whose only flaw is the missing `count` attribute. -/
def rootNoCount : XmlElem :=
  .node "FlexQueryResponse" [("queryName", "q"), ("type", "AF")] [fseNoCount]

theorem count_attribute_mandatory_witness :
    ∃ m, parse_xml rootNoCount = Except.error m :=
  count_attribute_mandatory rootNoCount fseNoCount rfl rfl

/-- A document element with no `FlexStatements` child at all. -/
def rootNoFS : XmlElem :=
  .node "FlexQueryResponse" [("queryName", "q"), ("type", "AF")] []

/-- What `rootNoFS` parses to: the collection field is left empty. -/
def docNoFS : FlexQueryResponse :=
  { queryName := some "q", «type» := some "AF", flexStatements := none }

/-- A parsed statement with no trade block. -/
def stmtNoTrades : FlexStatement :=
  { accountId := some "U333"
    fromDate := none
    toDate := none
    period := none
    whenGenerated := none
    accountInformation := none
    trades := none }

/-- A parsed statement whose trade block exists but holds no trades. -/
def stmtEmptyTrades : FlexStatement :=
  { stmtNoTrades with trades := some { trade := [], lot := [] } }

/-- C1 (evaluation): the parser deliberately tolerates an absent statement
collection (first conjunct), yet the converter then dereferences the `None`
collection and raises `AttributeError` instead of contributing zero rows
(second conjunct); likewise an absent trade block raises in the converter
(third conjunct).  Only the empty-trade-sequence case behaves as claimed,
contributing zero rows without error (fourth and fifth conjuncts). -/
theorem absent_optionals_crash_converter :
    parse_xml rootNoFS = Except.ok docNoFS ∧
    get_trades_from_xmls [("a.xml", some rootNoFS)] =
      Except.error "NoneType object has no attribute flexStatement" ∧
    rowsOfStatement stmtNoTrades =
      Except.error "NoneType object has no attribute trade" ∧
    rowsOfStatement stmtEmptyTrades = Except.ok [] ∧
    get_trades_from_parsed
      [{ queryName := some "q", «type» := some "AF",
         flexStatements := some { count := 1, flexStatement := [stmtEmptyTrades] } }] =
      Except.ok [] :=
  ⟨rfl, rfl, rfl, rfl, rfl⟩

example : pyFloat "150.0" = some 150 := by decide
example : pyFloat "-12.7" = some (mkRat (-127) 10) := by decide
example : pyFloat "" = none := by decide
example : pyFloat "abc" = none := by decide
example : pyInt "42" = some 42 := by decide
example : pyInt "4.2" = none := by decide
example : pyTrunc (mkRat 127 10) = 12 := by decide
example : pyTrunc |mkRat (-127) 10| = 12 := by decide

end IbkrConv
